import Mathlib

/-
Shallow embedding of the cluster membership manager of this repository
(cluster/members_manager.cc): the join protocol against the seed server
list, leader forwarding of join requests, propagation of raft0
configuration updates to the allocator, the per-shard members tables and
the connection cache.

Seastar futures are modelled by their resolved outcome: a value or an
exception. Sequencing with .then is modelled by pure composition, and the
places where the code issues side effects (allocator registration, shard
broadcast, connection open or close, seed dispatch) additionally return a
trace of the operations actually issued, in issue order. Remote calls and
callee outcomes are supplied as oracle functions, so every theorem
quantifies over the behaviour of the environment.
-/

set_option maxHeartbeats 1000000

namespace Cluster

/-- Exceptions with which a modelled future can fail. -/
inductive Exn where
  | sleepAborted
  | rpcError (code : Nat)
  | decodeError (code : Nat)
deriving DecidableEq

/-- Resolved outcome of a seastar future: a value, or a failed future carrying an exception. -/
inductive Fut (α : Type) where
  | ok (a : α)
  | exn (e : Exn)
deriving DecidableEq

/-- Model of future handle_exception: every exception is turned into a recovery value. -/
def Fut.handle_exception {α : Type} (f : Fut α) (h : Exn → α) : Fut α :=
  match f with
  | .ok a => .ok a
  | .exn e => .ok (h e)

/-- Model of future handle_exception_type: exceptions selected by the filter are turned into a recovery value, any other exception keeps the future failed. -/
def Fut.handle_exception_type {α : Type} (f : Fut α) (catches : Exn → Bool) (h : Exn → α) :
    Fut α :=
  match f with
  | .ok a => .ok a
  | .exn e => if catches e then .ok (h e) else .exn e

/-- Error codes of cluster errc used by members_manager.cc. -/
inductive errc where
  | success
  | seed_servers_exhausted
  | no_leader_controller
  | join_request_dispatch_error
deriving DecidableEq

/-- Model of the result type from outcome: either a value or an error code. -/
inductive RResult (α : Type) where
  | val (a : α)
  | err (e : errc)
deriving DecidableEq

/-- Model of has_value on a result. -/
def RResult.has_value {α : Type} : RResult α → Bool
  | .val _ => true
  | .err _ => false

/-- Model of a broker: node id, rpc address, core count. -/
structure broker where
  id : Nat
  rpc_address : Nat
  cores : Nat
deriving DecidableEq

/-- Model of a configured seed server: node id and address. -/
structure seed_server where
  id : Nat
  addr : Nat
deriving DecidableEq

/-- A join reply carries only a boolean success flag. -/
structure join_reply where
  success : Bool
deriving DecidableEq

/-- Model of cluster patch over brokers: additions and deletions lists. -/
structure patch where
  additions : List broker
  deletions : List broker
deriving DecidableEq

/-- Connection cache operations issued by update_connections. -/
inductive ConnOp where
  | closeClient (id : Nat)
  | openClient (id : Nat)
deriving DecidableEq

/-- Whether a connection operation is an open. -/
def ConnOp.isOpen : ConnOp → Bool
  | .openClient _ => true
  | .closeClient _ => false

/-- Model of seastar do_for_each for a handler that resolves to a future outcome and issues connection operations: the items are processed strictly in order and the loop stops at the first failed future, whose exception becomes the outcome of the whole loop. The second component is the trace of operations actually issued. -/
def do_for_each_ops {α : Type} (f : α → Fut Unit × List ConnOp) :
    List α → Fut Unit × List ConnOp
  | [] => (Fut.ok (), [])
  | x :: xs =>
    match (f x).1 with
    | .exn _ => f x
    | .ok _ => ((do_for_each_ops f xs).1, (f x).2 ++ (do_for_each_ops f xs).2)

/-- Model of members_manager update_connections (members_manager.cc lines 102-121): close the client of every deleted broker with do_for_each, then, only when that whole loop succeeded, open a client for every added broker with do_for_each, skipping the broker whose id equals the local id. The close_client and open_client oracles give the outcome of remove_broker_client and update_broker_client per node id; the returned list records the connection operations actually issued, in order. -/
def update_connections (self_id : Nat) (close_client open_client : Nat → Fut Unit)
    (diff : patch) : Fut Unit × List ConnOp :=
  let del := do_for_each_ops (fun b => (close_client b.id, [ConnOp.closeClient b.id]))
    diff.deletions
  match del.1 with
  | .exn e => (.exn e, del.2)
  | .ok _ =>
    let added := do_for_each_ops
      (fun b =>
        if b.id = self_id then (Fut.ok (), [])
        else (open_client b.id, [ConnOp.openClient b.id])) diff.additions
    (added.1, del.2 ++ added.2)

/-- Modelled from the spec: calculate_changed_brokers lives in cluster_utils, which is not among the shown sources. Spec section 4.2: additions are the brokers whose id is in the new list but not in the old one, deletions are the brokers whose id is in the old list but not in the new one; comparison is by id. -/
def calculate_changed_brokers (new_list old_list : List broker) : patch :=
  { additions := new_list.filter (fun b => !(old_list.any (fun o => o.id == b.id)))
    deletions := old_list.filter (fun o => !(new_list.any (fun b => b.id == o.id))) }

/-- Model of calculate_brokers_diff (members_manager.cc lines 50-59): the new list is built from the nodes of the configuration and the old list is the broker list of the given members table. -/
def calculate_brokers_diff (m : List broker) (cfg : List broker) : patch :=
  calculate_changed_brokers cfg m

/-- Modelled from the spec: members_table update_brokers is not among the shown sources. Spec sections 3 and 4.1: each shard applies the diff to its broker set, dropping the deletions and adding the additions. -/
def update_brokers (m : List broker) (p : patch) : List broker :=
  m.filter (fun b => !(p.deletions.any (fun d => d.id == b.id))) ++ p.additions

/-- Observable effects of handle_raft0_cfg_update, listed in issue order. -/
inductive MEv where
  | allocReg (id : Nat) (cores : Nat)
  | broadcast (shard : Nat)
  | connSync (d : patch)
deriving DecidableEq

/-- State touched by handle_raft0_cfg_update: node ids registered with the allocator, the members table of the invoking shard, and the members tables of the other shards. -/
structure members_state where
  allocatorNodes : List Nat
  localShard : List broker
  otherShards : List (List broker)
deriving DecidableEq

/-- Allocator registration loop of handle_raft0_cfg_update (members_manager.cc lines 64-74): for every node of the configuration not yet contained in the allocator, register it (with its core count); registration of an already known node is skipped. -/
def register_unseen (known : List Nat) : List broker → List Nat × List MEv
  | [] => (known, [])
  | n :: rest =>
    if known.contains n.id then register_unseen known rest
    else
      ((register_unseen (known ++ [n.id]) rest).1,
       MEv.allocReg n.id n.cores :: (register_unseen (known ++ [n.id]) rest).2)

/-- Model of members_manager handle_raft0_cfg_update (members_manager.cc lines 61-86). The continuation chain is: first the allocator registration of unseen nodes, then computation of the diff against the members table of the invoking shard, then the broadcast to every shard (each shard recomputing its own diff and applying it), and finally update_connections with the diff computed before the broadcast. Shard 0 is the invoking shard. The connSync event records the diff handed to update_connections. -/
def handle_raft0_cfg_update (st : members_state) (cfg : List broker) :
    members_state × List MEv :=
  let reg := register_unseen st.allocatorNodes cfg
  let diff := calculate_brokers_diff st.localShard cfg
  let newLocal := update_brokers st.localShard (calculate_brokers_diff st.localShard cfg)
  let newOthers := st.otherShards.map (fun m => update_brokers m (calculate_brokers_diff m cfg))
  (⟨reg.1, newLocal, newOthers⟩,
   reg.2
     ++ ((MEv.broadcast 0
            :: (List.range st.otherShards.length).map (fun i => MEv.broadcast (i + 1)))
        ++ [MEv.connSync diff]))

/-- Model of members_manager apply_update (members_manager.cc lines 88-95): decode the configuration record (adl from, which either yields a configuration or throws), then run handle_raft0_cfg_update and map its completion to errc success. The decoded argument is the outcome of the decode; the propagate oracle is the outcome of the handle_raft0_cfg_update future, whose failure modes come from its callees. Nothing in apply_update catches a failure: a decode throw escapes to the caller and a propagation failure stays a failed future. -/
def apply_update (decoded : Except Exn (List broker)) (propagate : List broker → Fut Unit) :
    Fut errc :=
  match decoded with
  | .error e => .exn e
  | .ok cfg =>
    match propagate cfg with
    | .exn e => .exn e
    | .ok _ => .ok errc.success

/-- Model of find_in_nodes over the configuration nodes. -/
def find_in_nodes (nodes : List broker) (nid : Nat) : Option broker :=
  nodes.find? (fun b => b.id == nid)

/-- Model of members_manager dispatch_rpc_to_leader (members_manager.cc lines 206-227): when no leader id is known, or the leader id has no node in the current configuration, resolve at once to the no_leader_controller error; otherwise invoke the supplied function through with_client against the leader id and its rpc address. The second component is the trace of (node id, address) pairs on which with_client invoked the supplied function. -/
def dispatch_rpc_to_leader (leader_id : Option Nat) (nodes : List broker)
    (f : Nat → Nat → Fut (RResult join_reply)) :
    Fut (RResult join_reply) × List (Nat × Nat) :=
  match leader_id with
  | none => (.ok (.err errc.no_leader_controller), [])
  | some lid =>
    match find_in_nodes nodes lid with
    | none => (.ok (.err errc.no_leader_controller), [])
    | some leader => (f lid leader.rpc_address, [(lid, leader.rpc_address)])

/-- Model of members_manager handle_join_request (members_manager.cc lines 229-258). On the leader, add_group_member is asked to add the candidate and its completion is mapped to a reply with success true (a failure of add_group_member stays a failed future). Otherwise the request is forwarded through dispatch_rpc_to_leader and handle_exception converts any exception of that chain into the join_request_dispatch_error code. The add_member oracle is the outcome of add_group_member for the candidate; the rpc oracle is the outcome of the join RPC sent to (leader id, address) for the candidate. -/
def handle_join_request (is_leader : Bool) (add_member : broker → Fut Unit)
    (leader_id : Option Nat) (nodes : List broker)
    (rpc : Nat → Nat → broker → Fut (RResult join_reply)) (b : broker) :
    Fut (RResult join_reply) × List (Nat × Nat) :=
  if is_leader then
    (match add_member b with
     | .ok _ => .ok (.val ⟨true⟩)
     | .exn e => .exn e, [])
  else
    let d := dispatch_rpc_to_leader leader_id nodes (fun lid addr => rpc lid addr b)
    (Fut.handle_exception d.1 (fun _ => .err errc.join_request_dispatch_error), d.2)

/-- Seed handling branch of dispatch_join_to_seed_server (members_manager.cc lines 181-188): a seed whose id is the local id is served by the local handle_join_request, any other seed gets a remote join dispatch. -/
def seed_attempt (self_id : Nat) (local_handle : Fut (RResult join_reply))
    (remote : seed_server → Fut (RResult join_reply)) (s : seed_server) :
    Fut (RResult join_reply) :=
  if s.id = self_id then local_handle else remote s

/-- Model of members_manager dispatch_join_to_seed_server (members_manager.cc lines 174-204), as a function of the remaining seed list. At the end of the list it resolves to the seed_servers_exhausted error. Otherwise the attempt at the head seed is examined with then_wrapped: when the future did not fail and the result has a value, that result is returned as is; in every other case (failed future, or result carrying an error code) dispatch moves on to the next seed. The second component is the trace of seeds actually attempted. -/
def dispatch_join_to_seed_server (attempt : seed_server → Fut (RResult join_reply)) :
    List seed_server → Fut (RResult join_reply) × List seed_server
  | [] => (.ok (.err errc.seed_servers_exhausted), [])
  | s :: rest =>
    match attempt s with
    | .ok r =>
      if r.has_value then (.ok r, [s])
      else ((dispatch_join_to_seed_server attempt rest).1,
            s :: (dispatch_join_to_seed_server attempt rest).2)
    | .exn _ =>
      ((dispatch_join_to_seed_server attempt rest).1,
       s :: (dispatch_join_to_seed_server attempt rest).2)

/-- The fixed backoff between join rounds, in seconds (members_manager.cc line 126). -/
def join_retry_interval : Nat := 5

/-- Model of sleep_abortable: the sleep fails with sleepAborted when the abort signal is raised during it, and resolves normally otherwise. Time is abstracted away, so the duration does not affect the outcome. -/
def sleep_abortable (_secs : Nat) (abortRaised : Bool) : Fut Unit :=
  if abortRaised then .exn Exn.sleepAborted else .ok ()

/-- Model of wait_for_next_join_retry (members_manager.cc lines 123-130): sleep_abortable for the fixed interval, with handle_exception_type swallowing the sleep_aborted exception, so the wait resolves normally whether or not it was aborted. -/
def wait_for_next_join_retry (abortRaised : Bool) : Fut Unit :=
  Fut.handle_exception_type (sleep_abortable join_retry_interval abortRaised)
    (fun e => match e with | Exn.sleepAborted => true | _ => false)
    (fun _ => ())

/-- Environment of the join loop: the configured seed list, the outcome of the attempt at each seed in each round, and the values observed by the stop checks and by the wait of each round. -/
structure JoinEnv where
  seeds : List seed_server
  attempt : Nat → seed_server → Fut (RResult join_reply)
  gateClosed : Nat → Bool
  alreadyMember : Nat → Bool
  abortInWait : Nat → Bool

/-- The dispatch performed by round n of the join loop: dispatch_join_to_seed_server starting from the first seed of the configured list (members_manager.cc line 157). -/
def round_dispatch (env : JoinEnv) (n : Nat) : Fut (RResult join_reply) × List seed_server :=
  dispatch_join_to_seed_server (env.attempt n) env.seeds

/-- The success test of join_raft0 (members_manager.cc line 159): the round result holds a value and that reply has success true. -/
def round_success (env : JoinEnv) (n : Nat) : Bool :=
  match (round_dispatch env n).1 with
  | .ok (.val jr) => jr.success
  | _ => false

/-- The stop test of join_raft0 (members_manager.cc line 161): success, or closed gate, or already a member. -/
def stop_check (env : JoinEnv) (n : Nat) : Bool :=
  round_success env n || env.gateClosed n || env.alreadyMember n

/-- Observable events of the join loop, in order: each round dispatches the seed list, then either the loop stops or it waits for the backoff (recording whether the abort signal was raised during the wait) and continues with the next round. -/
inductive JoinEv where
  | roundDispatched (n : Nat) (tried : List seed_server)
  | waited (n : Nat) (secs : Nat) (abortRaised : Bool)
  | stopped (n : Nat)
deriving DecidableEq

/-- Model of the repeat loop of members_manager join_raft0 (members_manager.cc lines 153-172): round n dispatches the whole seed list from its first entry; when the stop test holds the loop ends, otherwise it runs wait_for_next_join_retry and starts round n+1. The first argument after the environment is fuel bounding how many iterations are unfolded; the loop itself is unbounded. -/
def join_raft0 (env : JoinEnv) : Nat → Nat → List JoinEv
  | 0, _ => []
  | fuel + 1, n =>
    if stop_check env n then
      [JoinEv.roundDispatched n (round_dispatch env n).2, JoinEv.stopped n]
    else
      match wait_for_next_join_retry (env.abortInWait n) with
      | .exn _ => [JoinEv.roundDispatched n (round_dispatch env n).2]
      | .ok _ =>
        JoinEv.roundDispatched n (round_dispatch env n).2
          :: JoinEv.waited n join_retry_interval (env.abortInWait n)
          :: join_raft0 env fuel (n + 1)

/-- The three stop conditions of the join loop as the spec phrases them: a round yields a reply with success true, or the gate is closed, or the node is already a member. -/
def stop_reason (env : JoinEnv) (n : Nat) : Prop :=
  (∃ jr, (round_dispatch env n).1 = Fut.ok (RResult.val jr) ∧ jr.success = true)
  ∨ env.gateClosed n = true ∨ env.alreadyMember n = true

/-- Attempt oracle in which seed 1 answers with a reply whose success flag is false while every other seed would answer with a successful reply. -/
def attemptNeg : seed_server → Fut (RResult join_reply) :=
  fun s => if s.id = 1 then .ok (.val ⟨false⟩) else .ok (.val ⟨true⟩)

/-- Attempt oracle in which seed 1 fails with an rpc exception while every other seed answers with a successful reply. -/
def attemptExnFirst : seed_server → Fut (RResult join_reply) :=
  fun s => if s.id = 1 then .exn (Exn.rpcError 1) else .ok (.val ⟨true⟩)

/-- Claim C1, counterexample: with seeds 1 and 2, where seed 1 answers with a negative reply (success false) and seed 2 would answer with success, dispatch_join_to_seed_server returns the negative reply of seed 1 and never attempts seed 2: a negative reply does not make the dispatcher advance to the next seed. -/
theorem dispatch_negative_reply_counterexample :
    dispatch_join_to_seed_server attemptNeg [⟨1, 10⟩, ⟨2, 20⟩]
      = (Fut.ok (RResult.val ⟨false⟩), [⟨1, 10⟩])
    ∧ (⟨2, 20⟩ : seed_server) ∉ (dispatch_join_to_seed_server attemptNeg [⟨1, 10⟩, ⟨2, 20⟩]).2 := by
  decide

/-- Claim C1 (amended): dispatch_join_to_seed_server advances to the next seed exactly when the attempt at the current seed fails with an exception or yields a result carrying an error code; a reply holding a value, success flag true or false alike, is returned at once without advancing; and at the end of the seed list it returns the seed_servers_exhausted error code. -/
theorem dispatch_join_advance_amended
    (attempt : seed_server → Fut (RResult join_reply)) (s : seed_server)
    (rest : List seed_server) :
    dispatch_join_to_seed_server attempt []
        = (Fut.ok (RResult.err errc.seed_servers_exhausted), [])
    ∧ (∀ e, attempt s = Fut.exn e →
        dispatch_join_to_seed_server attempt (s :: rest)
          = ((dispatch_join_to_seed_server attempt rest).1,
             s :: (dispatch_join_to_seed_server attempt rest).2))
    ∧ (∀ c, attempt s = Fut.ok (RResult.err c) →
        dispatch_join_to_seed_server attempt (s :: rest)
          = ((dispatch_join_to_seed_server attempt rest).1,
             s :: (dispatch_join_to_seed_server attempt rest).2))
    ∧ (∀ r, attempt s = Fut.ok (RResult.val r) →
        dispatch_join_to_seed_server attempt (s :: rest)
          = (Fut.ok (RResult.val r), [s])) := by
  refine ⟨rfl, ?_, ?_, ?_⟩
  · intro e h
    simp [dispatch_join_to_seed_server, h]
  · intro c h
    simp [dispatch_join_to_seed_server, h, RResult.has_value]
  · intro r h
    simp [dispatch_join_to_seed_server, h, RResult.has_value]

/-- Witness for the amended claim C1 at a concrete input: seed 1 fails with an rpc exception, so the dispatcher advances to seed 2 and returns its successful reply, having attempted both seeds. -/
theorem dispatch_join_advance_amended_witness :
    dispatch_join_to_seed_server attemptExnFirst [⟨1, 10⟩, ⟨2, 20⟩]
      = (Fut.ok (RResult.val ⟨true⟩), [⟨1, 10⟩, ⟨2, 20⟩]) := by
  have h := (dispatch_join_advance_amended attemptExnFirst ⟨1, 10⟩ [⟨2, 20⟩]).2.1
    (Exn.rpcError 1) (by decide)
  rw [h]
  decide

/-- Claim C2, counterexample: apply_update with a failing decode resolves to that raw exception, and with a failing propagation resolves to that failed future; in neither case is the failure turned into an error result code returned as the value. -/
theorem apply_update_throws_counterexample :
    apply_update (Except.error (Exn.decodeError 7)) (fun _ => Fut.ok ())
        = Fut.exn (Exn.decodeError 7)
    ∧ apply_update (Except.ok []) (fun _ => Fut.exn (Exn.rpcError 3))
        = Fut.exn (Exn.rpcError 3) :=
  ⟨rfl, rfl⟩

/-- Claim C2 (amended): apply_update converts no failure into an error code: the only result code it ever returns is success, a decode failure escapes to the caller as the decode exception, a propagation failure stays a failed future, and when both steps succeed it resolves to the success code. -/
theorem apply_update_amended (decoded : Except Exn (List broker))
    (propagate : List broker → Fut Unit) :
    (∀ c, apply_update decoded propagate = Fut.ok c → c = errc.success)
    ∧ (∀ e, decoded = Except.error e → apply_update decoded propagate = Fut.exn e)
    ∧ (∀ cfg e, decoded = Except.ok cfg → propagate cfg = Fut.exn e →
        apply_update decoded propagate = Fut.exn e)
    ∧ (∀ cfg, decoded = Except.ok cfg → propagate cfg = Fut.ok () →
        apply_update decoded propagate = Fut.ok errc.success) := by
  refine ⟨?_, ?_, ?_, ?_⟩
  · intro c h
    cases decoded with
    | error e => simp [apply_update] at h
    | ok cfg =>
      cases hp : propagate cfg with
      | ok u =>
        simp [apply_update, hp] at h
        exact h.symm
      | exn e => simp [apply_update, hp] at h
  · intro e h
    rw [h]
    rfl
  · intro cfg e h hp
    rw [h]
    simp [apply_update, hp]
  · intro cfg h hp
    rw [h]
    simp [apply_update, hp]

/-- Witness for the amended claim C2 at a concrete input: a decode that succeeds and a propagation that succeeds resolve to the success code. -/
theorem apply_update_amended_witness :
    apply_update (Except.ok [⟨1, 10, 4⟩]) (fun _ => Fut.ok ()) = Fut.ok errc.success :=
  (apply_update_amended (Except.ok [⟨1, 10, 4⟩]) (fun _ => Fut.ok ())).2.2.2
    [⟨1, 10, 4⟩] rfl rfl

/-- Recovering a future with handle_exception never leaves it failed. -/
theorem Fut.handle_exception_ne_exn {α : Type} (f : Fut α) (h : Exn → α) (e : Exn) :
    f.handle_exception h ≠ Fut.exn e := by
  cases f <;> simp [Fut.handle_exception]

/-- Claim C6: on a non-leader, handle_join_request never resolves to a failed future, and when the leader is resolved but the forwarded join RPC fails with an exception, the reply is the join_request_dispatch_error result code. -/
theorem handle_join_request_no_raw_exception (add_member : broker → Fut Unit)
    (leader_id : Option Nat) (nodes : List broker)
    (rpc : Nat → Nat → broker → Fut (RResult join_reply)) (b : broker) :
    (∀ e, (handle_join_request false add_member leader_id nodes rpc b).1 ≠ Fut.exn e)
    ∧ (∀ lid leader e, leader_id = some lid → find_in_nodes nodes lid = some leader →
        rpc lid leader.rpc_address b = Fut.exn e →
        (handle_join_request false add_member leader_id nodes rpc b).1
          = Fut.ok (RResult.err errc.join_request_dispatch_error)) := by
  constructor
  · intro e
    simp only [handle_join_request, Bool.false_eq_true, if_false]
    exact Fut.handle_exception_ne_exn _ _ e
  · intro lid leader e hl hf hr
    rw [hl]
    simp [handle_join_request, dispatch_rpc_to_leader, hf, hr, Fut.handle_exception]

/-- Witness for claim C6 at a concrete input: the leader is node 3, the forwarded RPC fails with an rpc exception, and the reply is the join_request_dispatch_error code. -/
theorem handle_join_request_no_raw_exception_witness :
    (handle_join_request false (fun _ => Fut.ok ()) (some 3) [⟨3, 30, 4⟩]
        (fun _ _ _ => Fut.exn (Exn.rpcError 2)) ⟨9, 90, 2⟩).1
      = Fut.ok (RResult.err errc.join_request_dispatch_error) :=
  (handle_join_request_no_raw_exception (fun _ => Fut.ok ()) (some 3) [⟨3, 30, 4⟩]
      (fun _ _ _ => Fut.exn (Exn.rpcError 2)) ⟨9, 90, 2⟩).2 3 ⟨3, 30, 4⟩ (Exn.rpcError 2)
    rfl (by decide) rfl

/-- Claim C7: when the consensus layer reports no leader id, or the reported leader id resolves to no node of the current configuration, dispatch_rpc_to_leader resolves at once to the no_leader_controller error with an empty invocation trace: no RPC is issued and the supplied function is never invoked. -/
theorem dispatch_rpc_no_leader (nodes : List broker)
    (f : Nat → Nat → Fut (RResult join_reply)) :
    dispatch_rpc_to_leader none nodes f
        = (Fut.ok (RResult.err errc.no_leader_controller), [])
    ∧ (∀ lid, find_in_nodes nodes lid = none →
        dispatch_rpc_to_leader (some lid) nodes f
          = (Fut.ok (RResult.err errc.no_leader_controller), [])) := by
  refine ⟨rfl, ?_⟩
  intro lid h
  simp [dispatch_rpc_to_leader, h]

/-- Witness for claim C7 at a concrete input: leader id 5 is not among the configuration nodes, so the dispatch resolves to no_leader_controller with no invocation. -/
theorem dispatch_rpc_no_leader_witness :
    dispatch_rpc_to_leader (some 5) [⟨1, 10, 4⟩] (fun _ _ => Fut.ok (RResult.val ⟨true⟩))
      = (Fut.ok (RResult.err errc.no_leader_controller), []) :=
  (dispatch_rpc_no_leader [⟨1, 10, 4⟩] (fun _ _ => Fut.ok (RResult.val ⟨true⟩))).2 5 (by decide)

/-- Claim C10: on the leader, handle_join_request maps the resolution of add_group_member to a reply with success true, whatever the candidate, and the leader path never produces a reply whose success flag is false. -/
theorem handle_join_request_leader_success (add_member : broker → Fut Unit)
    (leader_id : Option Nat) (nodes : List broker)
    (rpc : Nat → Nat → broker → Fut (RResult join_reply)) (b : broker) :
    (add_member b = Fut.ok () →
      (handle_join_request true add_member leader_id nodes rpc b).1
        = Fut.ok (RResult.val ⟨true⟩))
    ∧ (∀ r, (handle_join_request true add_member leader_id nodes rpc b).1
          = Fut.ok (RResult.val r) → r.success = true) := by
  constructor
  · intro h
    simp [handle_join_request, h]
  · intro r h
    simp only [handle_join_request, if_true] at h
    cases ha : add_member b with
    | ok u =>
      rw [ha] at h
      simp at h
      rw [← h]
    | exn e =>
      rw [ha] at h
      simp at h

/-- Witness for claim C10 at a concrete input: add_group_member resolves, so the leader replies with success true. -/
theorem handle_join_request_leader_success_witness :
    (handle_join_request true (fun _ => Fut.ok ()) none []
        (fun _ _ _ => Fut.ok (RResult.err errc.no_leader_controller)) ⟨4, 40, 8⟩).1
      = Fut.ok (RResult.val ⟨true⟩) :=
  (handle_join_request_leader_success (fun _ => Fut.ok ()) none []
      (fun _ _ _ => Fut.ok (RResult.err errc.no_leader_controller)) ⟨4, 40, 8⟩).1 rfl

/-- Every event issued by the allocator registration loop is an allocator registration. -/
theorem register_unseen_evs (l : List broker) :
    ∀ known e, e ∈ (register_unseen known l).2 → ∃ i c, e = MEv.allocReg i c := by
  induction l with
  | nil =>
    intro known e h
    simp [register_unseen] at h
  | cons n rest ih =>
    intro known e h
    by_cases hc : known.contains n.id
    · simp only [register_unseen, hc, if_true] at h
      exact ih known e h
    · simp only [register_unseen, hc, if_false] at h
      rcases List.mem_cons.mp h with h1 | h2
      · exact ⟨n.id, n.cores, h1⟩
      · exact ih (known ++ [n.id]) e h2

/-- Claim C4: in any single invocation of handle_raft0_cfg_update the issued effects are, in order: first the allocator registrations, then the registry broadcast to the shards, then exactly one connection synchronization; and the diff handed to the connection synchronization is the one computed against the members table of the invoking shard before the broadcast. -/
theorem handle_raft0_cfg_update_ordering (st : members_state) (cfg : List broker) :
    ∃ A B, (handle_raft0_cfg_update st cfg).2
        = A ++ (B ++ [MEv.connSync (calculate_brokers_diff st.localShard cfg)])
      ∧ (∀ e ∈ A, ∃ i c, e = MEv.allocReg i c)
      ∧ (∀ e ∈ B, ∃ s, e = MEv.broadcast s) := by
  refine ⟨(register_unseen st.allocatorNodes cfg).2,
    MEv.broadcast 0
      :: (List.range st.otherShards.length).map (fun i => MEv.broadcast (i + 1)),
    rfl, ?_, ?_⟩
  · intro e he
    exact register_unseen_evs cfg st.allocatorNodes e he
  · intro e he
    rcases List.mem_cons.mp he with h1 | h2
    · exact ⟨0, h1⟩
    · rcases List.mem_map.mp h2 with ⟨i, _, rfl⟩
      exact ⟨i + 1, rfl⟩

/-- In the close loop, when every deleted broker of a leading segment closes fine and closing the next one fails, the loop resolves to that failure having issued exactly the closes up to and including the failing one. -/
theorem do_for_each_closes_fail (close_client : Nat → Fut Unit) (e : Exn) :
    ∀ (ds1 : List broker) (b : broker) (ds2 : List broker),
      (∀ d ∈ ds1, close_client d.id = Fut.ok ()) → close_client b.id = Fut.exn e →
      do_for_each_ops (fun d => (close_client d.id, [ConnOp.closeClient d.id]))
          (ds1 ++ b :: ds2)
        = (Fut.exn e,
           (ds1.map fun d => ConnOp.closeClient d.id) ++ [ConnOp.closeClient b.id]) := by
  intro ds1
  induction ds1 with
  | nil =>
    intro b ds2 _ hb
    simp [do_for_each_ops, hb]
  | cons x xs ih =>
    intro b ds2 hok hb
    have hx := hok x (List.mem_cons_self x xs)
    have hrec := ih b ds2 (fun y hy => hok y (List.mem_cons_of_mem x hy)) hb
    simp [do_for_each_ops, hx, hrec]

/-- Oracle for closing clients in which node 1 fails and every other node closes fine. -/
def closeFail1 : Nat → Fut Unit :=
  fun i => if i = 1 then Fut.exn (Exn.rpcError 4) else Fut.ok ()

/-- Claim C5, counterexample: with deletions 1 and 2 and addition 3, where closing the client of broker 1 fails, update_connections issues only the close of broker 1: the close of broker 2 and the open of broker 3 are never attempted, so a failure of one broker connection operation does abort the processing of the remaining brokers in the diff. -/
theorem update_connections_no_isolation_counterexample :
    update_connections 0 closeFail1 (fun _ => Fut.ok ())
        ⟨[⟨3, 103, 1⟩], [⟨1, 101, 1⟩, ⟨2, 102, 1⟩]⟩
      = (Fut.exn (Exn.rpcError 4), [ConnOp.closeClient 1])
    ∧ ConnOp.closeClient 2 ∉ (update_connections 0 closeFail1 (fun _ => Fut.ok ())
        ⟨[⟨3, 103, 1⟩], [⟨1, 101, 1⟩, ⟨2, 102, 1⟩]⟩).2
    ∧ ConnOp.openClient 3 ∉ (update_connections 0 closeFail1 (fun _ => Fut.ok ())
        ⟨[⟨3, 103, 1⟩], [⟨1, 101, 1⟩, ⟨2, 102, 1⟩]⟩).2 := by
  decide

/-- The close loop under fully successful closes issues exactly one close per deleted broker, in order. -/
theorem do_for_each_closes_ok (close_client : Nat → Fut Unit) :
    ∀ ds : List broker, (∀ d ∈ ds, close_client d.id = Fut.ok ()) →
      do_for_each_ops (fun d => (close_client d.id, [ConnOp.closeClient d.id])) ds
        = (Fut.ok (), ds.map fun d => ConnOp.closeClient d.id) := by
  intro ds
  induction ds with
  | nil => intro _; rfl
  | cons d rest ih =>
    intro hok
    have hd := hok d (List.mem_cons_self d rest)
    have hrec := ih (fun y hy => hok y (List.mem_cons_of_mem d hy))
    simp [do_for_each_ops, hd, hrec]

/-- In the open loop, when every added broker of a leading segment opens fine (or is the local broker and is skipped) and opening the next non-local one fails, the loop resolves to that failure having issued exactly the opens of the leading non-local brokers plus the failing one; later items are not processed. -/
theorem do_for_each_opens_fail (self_id : Nat) (open_client : Nat → Fut Unit) (e : Exn) :
    ∀ (as1 : List broker) (b : broker) (as2 : List broker),
      (∀ a ∈ as1, a.id ≠ self_id → open_client a.id = Fut.ok ()) →
      b.id ≠ self_id → open_client b.id = Fut.exn e →
      do_for_each_ops (fun a => if a.id = self_id then (Fut.ok (), [])
          else (open_client a.id, [ConnOp.openClient a.id])) (as1 ++ b :: as2)
        = (Fut.exn e,
           ((as1.filter fun a => a.id != self_id).map fun a => ConnOp.openClient a.id)
             ++ [ConnOp.openClient b.id]) := by
  intro as1
  induction as1 with
  | nil =>
    intro b as2 _ hself hb
    simp [do_for_each_ops, hself, hb]
  | cons x xs ih =>
    intro b as2 hok hself hb
    have hrec := ih b as2 (fun y hy hne => hok y (List.mem_cons_of_mem x hy) hne) hself hb
    by_cases hx : x.id = self_id
    · simp [do_for_each_ops, hx, hrec, List.filter_cons]
    · have hone := hok x (List.mem_cons_self x xs) hx
      simp [do_for_each_ops, hx, hone, hrec, List.filter_cons]

/-- Claim C5 (amended): connection operations are issued strictly in order and processing stops at the first failing one, whether that is the close of a deleted broker or the open of an added broker. When every deleted broker before b closes fine and closing b fails, update_connections resolves to that failure having issued exactly the closes up to and including b, and the remaining deletions as well as all additions get no call. When every close succeeds, every non-local added broker before b opens fine and opening the non-local b fails, update_connections resolves to that failure having issued all the closes, the opens of the leading non-local additions and the failing open of b, and the additions after b get no call. -/
theorem update_connections_failure_aborts (self_id : Nat)
    (close_client open_client : Nat → Fut Unit) (e : Exn) :
    (∀ (ds1 : List broker) (b : broker) (ds2 adds : List broker),
      (∀ d ∈ ds1, close_client d.id = Fut.ok ()) → close_client b.id = Fut.exn e →
      update_connections self_id close_client open_client ⟨adds, ds1 ++ b :: ds2⟩
        = (Fut.exn e,
           (ds1.map fun d => ConnOp.closeClient d.id) ++ [ConnOp.closeClient b.id]))
    ∧ (∀ (ds as1 : List broker) (b : broker) (as2 : List broker),
      (∀ d ∈ ds, close_client d.id = Fut.ok ()) →
      (∀ a ∈ as1, a.id ≠ self_id → open_client a.id = Fut.ok ()) →
      b.id ≠ self_id → open_client b.id = Fut.exn e →
      update_connections self_id close_client open_client ⟨as1 ++ b :: as2, ds⟩
        = (Fut.exn e,
           (ds.map fun d => ConnOp.closeClient d.id)
             ++ (((as1.filter fun a => a.id != self_id).map fun a => ConnOp.openClient a.id)
                ++ [ConnOp.openClient b.id]))) := by
  constructor
  · intro ds1 b ds2 adds hok hb
    have h := do_for_each_closes_fail close_client e ds1 b ds2 hok hb
    simp [update_connections, h]
  · intro ds as1 b as2 hds hok hself hb
    have h1 := do_for_each_closes_ok close_client ds hds
    have h2 := do_for_each_opens_fail self_id open_client e as1 b as2 hok hself hb
    simp [update_connections, h1, h2]

/-- Witness for the amended claim C5 at a concrete input exercising the open-failure case: the deletion of broker 5 closes fine and the local broker 0 is skipped, but opening broker 7 fails, so exactly the close of 5 and the open of 7 are issued; the later addition of broker 8 gets no call. -/
theorem update_connections_failure_aborts_witness :
    update_connections 0 (fun _ => Fut.ok ())
        (fun i => if i = 7 then Fut.exn (Exn.rpcError 7) else Fut.ok ())
        ⟨[⟨0, 100, 1⟩, ⟨7, 107, 1⟩, ⟨8, 108, 1⟩], [⟨5, 105, 1⟩]⟩
      = (Fut.exn (Exn.rpcError 7), [ConnOp.closeClient 5, ConnOp.openClient 7]) := by
  have h := (update_connections_failure_aborts 0 (fun _ => Fut.ok ())
      (fun i => if i = 7 then Fut.exn (Exn.rpcError 7) else Fut.ok ()) (Exn.rpcError 7)).2
      [⟨5, 105, 1⟩] [⟨0, 100, 1⟩] ⟨7, 107, 1⟩ [⟨8, 108, 1⟩]
      (by decide) (by decide) (by decide) (by decide)
  simpa using h

/-- Every operation in the trace of do_for_each_ops comes from the handler of some processed item. -/
theorem do_for_each_ops_mem {α : Type} (f : α → Fut Unit × List ConnOp) :
    ∀ (l : List α) (op : ConnOp), op ∈ (do_for_each_ops f l).2 → ∃ x ∈ l, op ∈ (f x).2 := by
  intro l
  induction l with
  | nil =>
    intro op h
    simp [do_for_each_ops] at h
  | cons x xs ih =>
    intro op h
    simp only [do_for_each_ops] at h
    cases hx : (f x).1 with
    | exn e =>
      rw [hx] at h
      simp at h
      exact ⟨x, List.mem_cons_self x xs, h⟩
    | ok u =>
      rw [hx] at h
      simp at h
      rcases h with h1 | h2
      · exact ⟨x, List.mem_cons_self x xs, h1⟩
      · rcases ih op h2 with ⟨y, hy, hop⟩
        exact ⟨y, List.mem_cons_of_mem x hy, hop⟩

/-- The open loop under fully successful opens issues exactly one open per added broker other than the local one, in order. -/
theorem do_for_each_opens (self_id : Nat) (open_client : Nat → Fut Unit) :
    ∀ adds : List broker, (∀ a ∈ adds, a.id ≠ self_id → open_client a.id = Fut.ok ()) →
      do_for_each_ops (fun a => if a.id = self_id then (Fut.ok (), [])
          else (open_client a.id, [ConnOp.openClient a.id])) adds
        = (Fut.ok (), (adds.filter fun a => a.id != self_id).map
            fun a => ConnOp.openClient a.id) := by
  intro adds
  induction adds with
  | nil => intro _; rfl
  | cons a rest ih =>
    intro hok
    have hrec := ih (fun y hy hne => hok y (List.mem_cons_of_mem a hy) hne)
    by_cases ha : a.id = self_id
    · simp [do_for_each_ops, ha, hrec, List.filter_cons]
    · have hone := hok a (List.mem_cons_self a rest) ha
      simp [do_for_each_ops, ha, hone, hrec, List.filter_cons]

/-- Claim C8 (amended): update_connections never issues a connection open for the local node id, whatever the diff and whatever the oracle outcomes; and when no connection operation fails, it issues an open for exactly every added broker other than the local one. -/
theorem update_connections_self_excluded (self_id : Nat)
    (close_client open_client : Nat → Fut Unit) (diff : patch) :
    ConnOp.openClient self_id ∉ (update_connections self_id close_client open_client diff).2
    ∧ ((∀ d ∈ diff.deletions, close_client d.id = Fut.ok ()) →
       (∀ a ∈ diff.additions, a.id ≠ self_id → open_client a.id = Fut.ok ()) →
       ((update_connections self_id close_client open_client diff).2.filter ConnOp.isOpen
         = (diff.additions.filter fun a => a.id != self_id).map
             fun a => ConnOp.openClient a.id)) := by
  constructor
  · intro hmem
    simp only [update_connections] at hmem
    cases hdel : (do_for_each_ops
        (fun b => (close_client b.id, [ConnOp.closeClient b.id])) diff.deletions).1 with
    | exn e =>
      rw [hdel] at hmem
      simp at hmem
      rcases do_for_each_ops_mem _ _ _ hmem with ⟨d, _, hop⟩
      simp at hop
    | ok u =>
      rw [hdel] at hmem
      simp at hmem
      rcases hmem with h1 | h2
      · rcases do_for_each_ops_mem _ _ _ h1 with ⟨d, _, hop⟩
        simp at hop
      · rcases do_for_each_ops_mem _ _ _ h2 with ⟨a, _, hop⟩
        by_cases ha : a.id = self_id
        · rw [if_pos ha] at hop
          simp at hop
        · rw [if_neg ha] at hop
          simp at hop
          exact ha hop.symm
  · intro hdel hadd
    have h1 := do_for_each_closes_ok close_client diff.deletions hdel
    have h2 := do_for_each_opens self_id open_client diff.additions hadd
    simp only [update_connections, h1, h2]
    rw [List.filter_append]
    have hcl : (diff.deletions.map fun d => ConnOp.closeClient d.id).filter ConnOp.isOpen
        = [] := by
      rw [List.filter_map]
      simp [Function.comp, ConnOp.isOpen]
    have hop : ((diff.additions.filter fun a => a.id != self_id).map
          fun a => ConnOp.openClient a.id).filter ConnOp.isOpen
        = (diff.additions.filter fun a => a.id != self_id).map
            fun a => ConnOp.openClient a.id := by
      rw [List.filter_map]
      simp [Function.comp, ConnOp.isOpen]
    rw [hcl, hop, List.nil_append]

/-- Claim C8, counterexample: additions hold the local id 0 and broker 7, deletions hold broker 5 whose close fails: no open operation at all is issued, in particular none for broker 7, so the open calls for the other added brokers are not issued, although the local broker is indeed skipped. -/
theorem update_connections_self_open_counterexample :
    update_connections 0 (fun _ => Fut.exn (Exn.rpcError 9)) (fun _ => Fut.ok ())
        ⟨[⟨0, 100, 1⟩, ⟨7, 107, 1⟩], [⟨5, 105, 1⟩]⟩
      = (Fut.exn (Exn.rpcError 9), [ConnOp.closeClient 5])
    ∧ ConnOp.openClient 7 ∉ (update_connections 0 (fun _ => Fut.exn (Exn.rpcError 9))
        (fun _ => Fut.ok ()) ⟨[⟨0, 100, 1⟩, ⟨7, 107, 1⟩], [⟨5, 105, 1⟩]⟩).2 := by
  decide

/-- Witness for the amended claim C8 at a concrete input: with all connection operations succeeding, the local broker 0 gets no open while broker 7 gets exactly one. -/
theorem update_connections_self_excluded_witness :
    ConnOp.openClient 0 ∉ (update_connections 0 (fun _ => Fut.ok ()) (fun _ => Fut.ok ())
        ⟨[⟨0, 100, 1⟩, ⟨7, 107, 1⟩], [⟨5, 105, 1⟩]⟩).2
    ∧ (update_connections 0 (fun _ => Fut.ok ()) (fun _ => Fut.ok ())
        ⟨[⟨0, 100, 1⟩, ⟨7, 107, 1⟩], [⟨5, 105, 1⟩]⟩).2.filter ConnOp.isOpen
      = [ConnOp.openClient 7] := by
  have h := update_connections_self_excluded 0 (fun _ => Fut.ok ()) (fun _ => Fut.ok ())
      ⟨[⟨0, 100, 1⟩, ⟨7, 107, 1⟩], [⟨5, 105, 1⟩]⟩
  refine ⟨h.1, ?_⟩
  have h2 := h.2 (by decide) (by decide)
  rw [h2]
  decide

/-- The backoff wait always resolves normally: the sleep aborted exception raised by an aborted sleep is swallowed by handle_exception_type. -/
theorem wait_for_next_join_retry_ok (a : Bool) : wait_for_next_join_retry a = Fut.ok () := by
  cases a <;> rfl

/-- The boolean stop test of the loop holds exactly when one of the three stop conditions of the spec holds. -/
theorem stop_check_true_iff (env : JoinEnv) (n : Nat) :
    stop_check env n = true ↔ stop_reason env n := by
  unfold stop_check stop_reason round_success
  cases hd : (round_dispatch env n).1 with
  | ok r =>
    cases r with
    | val jr => simp [hd, Bool.or_eq_true, or_assoc]
    | err c => simp [hd, Bool.or_eq_true, or_assoc]
  | exn e => simp [hd, Bool.or_eq_true, or_assoc]

/-- The boolean stop test of the loop fails exactly when none of the three stop conditions of the spec holds. -/
theorem stop_check_false_iff (env : JoinEnv) (n : Nat) :
    stop_check env n = false ↔ ¬ stop_reason env n := by
  rw [← stop_check_true_iff]
  cases stop_check env n <;> simp

/-- When the stop test holds at round n, the loop dispatches round n and stops. -/
theorem join_raft0_stop (env : JoinEnv) (fuel n : Nat) (h : stop_check env n = true) :
    join_raft0 env (fuel + 1) n
      = [JoinEv.roundDispatched n (round_dispatch env n).2, JoinEv.stopped n] := by
  simp [join_raft0, h]

/-- When the stop test fails at round n, the loop dispatches round n, waits, and continues with round n+1. -/
theorem join_raft0_go (env : JoinEnv) (fuel n : Nat) (h : stop_check env n = false) :
    join_raft0 env (fuel + 1) n
      = JoinEv.roundDispatched n (round_dispatch env n).2
        :: JoinEv.waited n join_retry_interval (env.abortInWait n)
        :: join_raft0 env fuel (n + 1) := by
  simp [join_raft0, h, wait_for_next_join_retry_ok]

/-- Every unfolded iteration begins by dispatching the whole seed list for its round. -/
theorem join_raft0_head_mem (env : JoinEnv) (fuel k : Nat) :
    JoinEv.roundDispatched k (round_dispatch env k).2 ∈ join_raft0 env (fuel + 1) k := by
  cases h : stop_check env k with
  | true =>
    rw [join_raft0_stop env fuel k h]
    exact List.mem_cons_self _ _
  | false =>
    rw [join_raft0_go env fuel k h]
    exact List.mem_cons_self _ _

/-- A stop event for round N occurs in the unfolded loop exactly when N lies in the unfolded window and is the first round from n on whose stop test holds. -/
theorem join_raft0_stopped_iff (env : JoinEnv) :
    ∀ fuel n N, JoinEv.stopped N ∈ join_raft0 env fuel n ↔
      (n ≤ N ∧ N < n + fuel ∧ stop_check env N = true
        ∧ ∀ m, n ≤ m → m < N → stop_check env m = false) := by
  intro fuel
  induction fuel with
  | zero =>
    intro n N
    constructor
    · intro h
      exact absurd h (List.not_mem_nil _)
    · rintro ⟨h1, h2, -, -⟩
      exact absurd h2 (by omega)
  | succ f ih =>
    intro n N
    cases h : stop_check env n with
    | true =>
      rw [join_raft0_stop env f n h]
      constructor
      · intro hmem
        simp at hmem
        subst hmem
        exact ⟨le_refl N, by omega, h, fun m hm1 hm2 => absurd hm1 (by omega)⟩
      · rintro ⟨h1, h2, h3, h4⟩
        have hNn : N = n := by
          by_contra hne
          have hlt : n < N := by omega
          have := h4 n (le_refl n) hlt
          rw [h] at this
          exact absurd this (by decide)
        subst hNn
        simp
    | false =>
      rw [join_raft0_go env f n h]
      constructor
      · intro hmem
        rcases List.mem_cons.mp hmem with h1 | hmem2
        · exact absurd h1 (by simp)
        rcases List.mem_cons.mp hmem2 with h2 | hmem3
        · exact absurd h2 (by simp)
        have hr := (ih (n + 1) N).mp hmem3
        refine ⟨by omega, by omega, hr.2.2.1, ?_⟩
        intro m hm1 hm2
        rcases Nat.eq_or_lt_of_le hm1 with heq | hlt
        · rw [← heq]
          exact h
        · exact hr.2.2.2 m (by omega) hm2
      · rintro ⟨h1, h2, h3, h4⟩
        have hNn : N ≠ n := by
          intro heq
          rw [heq] at h3
          rw [h] at h3
          exact absurd h3 (by decide)
        apply List.mem_cons_of_mem
        apply List.mem_cons_of_mem
        exact (ih (n + 1) N).mpr
          ⟨by omega, by omega, h3, fun m hm1 hm2 => h4 m (by omega) hm2⟩

/-- When no round up to N satisfies the stop test and the unfolded window is long enough, the loop waits after round N and then dispatches round N+1 over the seed list again. -/
theorem join_raft0_continues (env : JoinEnv) :
    ∀ fuel n N, n ≤ N → (∀ m, n ≤ m → m ≤ N → stop_check env m = false) →
      N + 1 < n + fuel →
      JoinEv.waited N join_retry_interval (env.abortInWait N) ∈ join_raft0 env fuel n
      ∧ JoinEv.roundDispatched (N + 1) (round_dispatch env (N + 1)).2
          ∈ join_raft0 env fuel n := by
  intro fuel
  induction fuel with
  | zero =>
    intro n N h1 _ h3
    exact absurd h3 (by omega)
  | succ f ih =>
    intro n N h1 h2 h3
    have hn : stop_check env n = false := h2 n (le_refl n) h1
    rw [join_raft0_go env f n hn]
    rcases Nat.eq_or_lt_of_le h1 with heq | hlt
    · subst heq
      constructor
      · exact List.mem_cons_of_mem _ (List.mem_cons_self _ _)
      · obtain ⟨f2, rfl⟩ : ∃ f2, f = f2 + 1 := ⟨f - 1, by omega⟩
        exact List.mem_cons_of_mem _
          (List.mem_cons_of_mem _ (join_raft0_head_mem env f2 (n + 1)))
    · have hr := ih (n + 1) N (by omega) (fun m hm1 hm2 => h2 m (by omega) hm2) (by omega)
      exact ⟨List.mem_cons_of_mem _ (List.mem_cons_of_mem _ hr.1),
             List.mem_cons_of_mem _ (List.mem_cons_of_mem _ hr.2)⟩

/-- Claim C9: the backoff interval is the fixed 5 seconds, and the join retry loop stops at round N exactly when N is the first round whose dispatch yields a reply with success true, or at which the node is already a member, or at which the gate is closed; in every other case the loop runs the backoff wait and then dispatches a new round over the seed list from its first entry. -/
theorem join_loop_stop_characterization (env : JoinEnv) (fuel n N : Nat) :
    join_retry_interval = 5
    ∧ (JoinEv.stopped N ∈ join_raft0 env fuel n ↔
        (n ≤ N ∧ N < n + fuel ∧ stop_reason env N
          ∧ ∀ m, n ≤ m → m < N → ¬ stop_reason env m))
    ∧ (n ≤ N → (∀ m, n ≤ m → m ≤ N → ¬ stop_reason env m) → N + 1 < n + fuel →
        JoinEv.waited N join_retry_interval (env.abortInWait N) ∈ join_raft0 env fuel n
        ∧ JoinEv.roundDispatched (N + 1) (round_dispatch env (N + 1)).2
            ∈ join_raft0 env fuel n) := by
  refine ⟨rfl, ?_, ?_⟩
  · rw [join_raft0_stopped_iff env fuel n N]
    constructor
    · rintro ⟨h1, h2, h3, h4⟩
      exact ⟨h1, h2, (stop_check_true_iff env N).mp h3,
        fun m hm1 hm2 => (stop_check_false_iff env m).mp (h4 m hm1 hm2)⟩
    · rintro ⟨h1, h2, h3, h4⟩
      exact ⟨h1, h2, (stop_check_true_iff env N).mpr h3,
        fun m hm1 hm2 => (stop_check_false_iff env m).mpr (h4 m hm1 hm2)⟩
  · intro h1 h2 h3
    exact join_raft0_continues env fuel n N h1
      (fun m hm1 hm2 => (stop_check_false_iff env m).mpr (h2 m hm1 hm2)) h3

/-- Join environment in which the single seed always answers with an error result, the gate never closes, the node never becomes a member and the abort signal is never raised. -/
def envAllFail : JoinEnv where
  seeds := [⟨1, 10⟩]
  attempt := fun _ _ => .ok (.err errc.join_request_dispatch_error)
  gateClosed := fun _ => false
  alreadyMember := fun _ => false
  abortInWait := fun _ => false

/-- Witness for claim C9 at a concrete input: in an environment where every round fails and nothing stops the loop, round 0 is followed by the backoff wait and by the dispatch of round 1 over the seed list. -/
theorem join_loop_stop_characterization_witness :
    JoinEv.waited 0 join_retry_interval (envAllFail.abortInWait 0) ∈ join_raft0 envAllFail 2 0
    ∧ JoinEv.roundDispatched 1 (round_dispatch envAllFail 1).2
        ∈ join_raft0 envAllFail 2 0 := by
  refine (join_loop_stop_characterization envAllFail 2 0 0).2.2 (le_refl 0) ?_ (by omega)
  intro m _ hm2
  have hm : m = 0 := Nat.le_zero.mp hm2
  subst hm
  rw [← stop_check_false_iff]
  decide

/-- Join environment like envAllFail but in which the abort signal is raised during every backoff wait. -/
def envAbort : JoinEnv where
  seeds := [⟨1, 10⟩]
  attempt := fun _ _ => .ok (.err errc.join_request_dispatch_error)
  gateClosed := fun _ => false
  alreadyMember := fun _ => false
  abortInWait := fun _ => true

/-- Claim C3, counterexample: in the environment envAbort the abort signal is raised during the wait after round 0, as the waited event records, yet the loop dispatches rounds 1 and 2 afterwards and no stop event occurs in the first three unfolded iterations: raising abort during the backoff wait neither prevents a new round of seed dispatches nor makes the loop reach a stop. -/
theorem abort_during_wait_counterexample :
    JoinEv.waited 0 join_retry_interval true ∈ join_raft0 envAbort 3 0
    ∧ JoinEv.roundDispatched 1 [⟨1, 10⟩] ∈ join_raft0 envAbort 3 0
    ∧ JoinEv.roundDispatched 2 [⟨1, 10⟩] ∈ join_raft0 envAbort 3 0
    ∧ JoinEv.stopped 0 ∉ join_raft0 envAbort 3 0
    ∧ JoinEv.stopped 1 ∉ join_raft0 envAbort 3 0
    ∧ JoinEv.stopped 2 ∉ join_raft0 envAbort 3 0 := by
  decide

/-- Claim C3 (amended): raising the abort signal during the backoff wait does not abort the join attempt: wait_for_next_join_retry swallows the sleep aborted exception and resolves normally, and whenever the stop test failed after round n the loop waits and then dispatches round n+1 over the seed list, whether or not the abort signal was raised during the wait; the loop stops only through the post-round stop test. -/
theorem abort_during_wait_continues (env : JoinEnv) (fuel n : Nat)
    (h : stop_check env n = false) :
    wait_for_next_join_retry true = Fut.ok ()
    ∧ join_raft0 env (fuel + 2) n
        = JoinEv.roundDispatched n (round_dispatch env n).2
          :: JoinEv.waited n join_retry_interval (env.abortInWait n)
          :: join_raft0 env (fuel + 1) (n + 1)
    ∧ JoinEv.roundDispatched (n + 1) (round_dispatch env (n + 1)).2
        ∈ join_raft0 env (fuel + 2) n := by
  refine ⟨wait_for_next_join_retry_ok true, join_raft0_go env (fuel + 1) n h, ?_⟩
  rw [join_raft0_go env (fuel + 1) n h]
  exact List.mem_cons_of_mem _ (List.mem_cons_of_mem _ (join_raft0_head_mem env fuel (n + 1)))

/-- Witness for the amended claim C3 at a concrete input: in an environment whose abort signal is raised during every wait, the aborted wait of round 0 resolves normally and round 1 is dispatched. -/
theorem abort_during_wait_continues_witness :
    wait_for_next_join_retry true = Fut.ok ()
    ∧ JoinEv.roundDispatched 1 (round_dispatch envAbort 1).2 ∈ join_raft0 envAbort 2 0 := by
  have h := abort_during_wait_continues envAbort 0 0 (by decide)
  exact ⟨h.1, h.2.2⟩

end Cluster
